import Mathlib

/-!
Verification of the QCA8K switch driver core (qca8k.c / qca8k-common.c).

The driver functions are shallowly embedded: each C function becomes a Lean
function over explicit state.  Machine integers are Nat (or Int for C `int`
return codes) with masking where the C u32 arithmetic wraps.  The register
layout constants come from the chip header qca8k.h, which is not among the
provided source files; those constants are therefore modelled from the spec
(section 3 data model and section 6 wire-level interface) and carry a doc
comment saying so.  Hardware responses (bus errors, busy-wait results,
values read back) are supplied by explicit oracle parameters, so a theorem
quantified over the oracle covers every hardware outcome.
-/

namespace QCA8K

/-- Modelled from the spec: number of switch ports (missing header qca8k.h;
spec section 3 says the port array has N = 6 or 7 entries, the qca8k
variant treated by qca8k-common.c has 7 ports, indexed 0..6). -/
def QCA8K_NUM_PORTS : Nat := 7

/-- Modelled from the spec: the CPU facing port is port 0 (missing header
qca8k.h; spec section 4.4 setup asserts the CPU port is port 0). -/
def QCA8K_CPU_PORT : Nat := 0

/-- All bits of a 32 bit register; the C driver computes on u32 values. -/
def u32mask : Nat := 0xffffffff

/-- Modelled from the spec: VTU_FUNC0 valid bit (missing header qca8k.h;
spec section 4.3 says vlan_add sets the valid bit of the entry). -/
def QCA8K_VTU_FUNC0_VALID : Nat := 2 ^ 20

/-- Modelled from the spec: VTU_FUNC0 independent VLAN learning bit
(missing header qca8k.h; spec section 4.3). -/
def QCA8K_VTU_FUNC0_IVL_EN : Nat := 2 ^ 19

/-- Modelled from the spec: shift of the 2 bit per-port egress mode field
of port i inside VTU_FUNC0 (missing header qca8k.h; spec section 3 gives a
per-port egress mode in {not-a-member, tagged, untagged}, packed two bits
per port starting at bit 4). -/
def QCA8K_VTU_FUNC0_EG_MODE_S (i : Nat) : Nat := 4 + i * 2

/-- Width mask of one egress mode field. -/
def QCA8K_VTU_FUNC0_EG_MODE_MASK : Nat := 3

/-- Egress mode encoding: send the frame untagged. -/
def QCA8K_VTU_FUNC0_EG_MODE_UNTAG : Nat := 1

/-- Egress mode encoding: send the frame tagged. -/
def QCA8K_VTU_FUNC0_EG_MODE_TAG : Nat := 2

/-- Egress mode encoding: the port is not a member of the VLAN. -/
def QCA8K_VTU_FUNC0_EG_MODE_NOT : Nat := 3

/-- VTU hardware state.  func0 is the VTU_FUNC0 staging register; table
maps a VLAN id to the stored VTU_FUNC0 image of its entry; a purged or
never-loaded vid stores 0 (valid bit clear). -/
structure VtuState where
  func0 : Nat
  table : Nat → Nat

/-- VTU commands issued through VTU_FUNC1, as traced by the embedding. -/
inductive VtuCmd where
  | read (vid : Nat)
  | load (vid : Nat)
  | purge (vid : Nat)
deriving DecidableEq, Repr

/-- Effect of qca8k_vlan_access on ideal hardware (the VTU_FUNC1 command
write succeeds, the busy bit clears, the full bit stays clear): READ loads
the entry of vid into the staging register, LOAD stores the staging
register into the entry of vid, PURGE frees the entry of vid. -/
def qca8k_vlan_access (s : VtuState) (cmd : VtuCmd) : VtuState :=
  match cmd with
  | .read vid => { s with func0 := s.table vid }
  | .load vid => { s with table := fun v => if v = vid then s.func0 else s.table v }
  | .purge vid => { s with table := fun v => if v = vid then 0 else s.table v }

/-- Embedding of qca8k_vlan_add (qca8k-common.c lines 247..286) on ideal
hardware, returning the new state and the trace of VTU commands issued.
A zero vid returns immediately with no command.  Otherwise the entry is
read, the valid and IVL bits are set, the egress mode field of the given
port is cleared and rewritten as untagged or tagged, and the merged entry
is written back with LOAD. -/
def qca8k_vlan_add (s : VtuState) (port vid : Nat) (untagged : Bool) :
    VtuState × List VtuCmd :=
  if vid = 0 then (s, [])
  else
    let s1 := qca8k_vlan_access s (.read vid)
    let reg := s1.func0
    let reg := reg ||| QCA8K_VTU_FUNC0_VALID ||| QCA8K_VTU_FUNC0_IVL_EN
    let reg := reg &&& (u32mask ^^^
      (QCA8K_VTU_FUNC0_EG_MODE_MASK <<< QCA8K_VTU_FUNC0_EG_MODE_S port))
    let reg := if untagged then
        reg ||| (QCA8K_VTU_FUNC0_EG_MODE_UNTAG <<< QCA8K_VTU_FUNC0_EG_MODE_S port)
      else
        reg ||| (QCA8K_VTU_FUNC0_EG_MODE_TAG <<< QCA8K_VTU_FUNC0_EG_MODE_S port)
    let s2 := { s1 with func0 := reg }
    (qca8k_vlan_access s2 (.load vid), [.read vid, .load vid])

/-- The entry image built by qca8k_vlan_del before the member check: the
egress mode field of the given port is cleared and set to not-a-member
(qca8k-common.c lines 303..305). -/
def vlanDelEntry (reg port : Nat) : Nat :=
  (reg &&& (u32mask ^^^ (3 <<< QCA8K_VTU_FUNC0_EG_MODE_S port))) |||
    (QCA8K_VTU_FUNC0_EG_MODE_NOT <<< QCA8K_VTU_FUNC0_EG_MODE_S port)

/-- Embedding of qca8k_vlan_del (qca8k-common.c lines 288..332) on ideal
hardware: the entry is read, the egress mode field of the given port is
set to not-a-member, and if every port of the resulting entry has egress
mode not-a-member the entry is purged, otherwise the modified entry is
written back with LOAD. -/
def qca8k_vlan_del (s : VtuState) (port vid : Nat) : VtuState × List VtuCmd :=
  let s1 := qca8k_vlan_access s (.read vid)
  let reg := vlanDelEntry s1.func0 port
  let del := (List.range QCA8K_NUM_PORTS).all fun i =>
    reg &&& (QCA8K_VTU_FUNC0_EG_MODE_NOT <<< QCA8K_VTU_FUNC0_EG_MODE_S i) ==
      QCA8K_VTU_FUNC0_EG_MODE_NOT <<< QCA8K_VTU_FUNC0_EG_MODE_S i
  if del then
    (qca8k_vlan_access s1 (.purge vid), [.read vid, .purge vid])
  else
    let s2 := { s1 with func0 := reg }
    (qca8k_vlan_access s2 (.load vid), [.read vid, .load vid])

/-- Egress mode of port i in a VTU_FUNC0 image, read back as the source
does with shift and mask. -/
def egModeOf (reg i : Nat) : Nat :=
  (reg >>> QCA8K_VTU_FUNC0_EG_MODE_S i) &&& QCA8K_VTU_FUNC0_EG_MODE_MASK

/-- A vid is present in the VTU when the valid bit of its entry is set. -/
def vtuPresent (s : VtuState) (vid : Nat) : Bool :=
  Nat.testBit (s.table vid) 20

/-- Reading a two bit field with shift and mask equals the two bits. -/
lemma and3_shift (x s : Nat) :
    (x >>> s) &&& 3 = (Nat.testBit x s).toNat + 2 * (Nat.testBit x (s+1)).toNat := by
  have h3 : (3 : Nat) = 2 ^ 2 - 1 := rfl
  rw [h3, Nat.and_pow_two_sub_one_eq_mod, Nat.shiftRight_eq_div_pow,
    Nat.testBit_to_div_mod, Nat.testBit_to_div_mod]
  have hdiv : x / 2 ^ (s + 1) = x / 2 ^ s / 2 := by
    rw [Nat.pow_succ, ← Nat.div_div_eq_div_mul]
  rw [hdiv]
  by_cases h1 : x / 2 ^ s % 2 = 1 <;> by_cases h2 : x / 2 ^ s / 2 % 2 = 1 <;>
    simp [h1, h2] <;> omega

/-- A value below 4 shifted to position s has no bit outside s and s+1. -/
lemma testBit_small_shift (m s n : Nat) (hm : m < 4) (h0 : n ≠ s) (h1 : n ≠ s + 1) :
    Nat.testBit (m <<< s) n = false := by
  rw [Nat.testBit_shiftLeft]
  by_cases hs : s ≤ n
  · have h2 : 2 ≤ n - s := by omega
    have hlt : m < 2 ^ (n - s) := by
      calc m < 4 := hm
        _ = 2 ^ 2 := rfl
        _ ≤ 2 ^ (n - s) := Nat.pow_le_pow_right (by omega) h2
    simp [Nat.testBit_lt_two_pow hlt]
  · simp [ge_iff_le, hs]

/-- Every bit of the 32 bit all-ones mask below 32 is set. -/
lemma testBit_u32mask (n : Nat) (h : n < 32) : Nat.testBit u32mask n = true := by
  have hh : u32mask = 2 ^ 32 - 1 := rfl
  rw [hh, Nat.testBit_two_pow_sub_one]
  simpa using h

/-- Clearing the two bit field at s and writing m there does not change a
bit outside the field. -/
lemma testBit_vmerge (a m sp n : Nat) (hn : n < 32) (h0 : n ≠ sp)
    (h1 : n ≠ sp + 1) (hm : m < 4) :
    Nat.testBit ((a &&& (u32mask ^^^ (3 <<< sp))) ||| (m <<< sp)) n =
      Nat.testBit a n := by
  simp [Nat.testBit_or, Nat.testBit_and, Nat.testBit_xor, testBit_u32mask n hn,
    testBit_small_shift 3 sp n (by norm_num) h0 h1,
    testBit_small_shift m sp n hm h0 h1]

/-- Low bit of the rewritten two bit field. -/
lemma testBit_vmerge_lo (a m sp : Nat) (hsp : sp < 32) :
    Nat.testBit ((a &&& (u32mask ^^^ (3 <<< sp))) ||| (m <<< sp)) sp =
      Nat.testBit m 0 := by
  have h3 : Nat.testBit (3 <<< sp) sp = true := by
    rw [Nat.testBit_shiftLeft]
    simp
  simp [Nat.testBit_or, Nat.testBit_and, Nat.testBit_xor, h3,
    testBit_u32mask sp hsp, Nat.testBit_shiftLeft]

/-- High bit of the rewritten two bit field. -/
lemma testBit_vmerge_hi (a m sp : Nat) (hsp : sp + 1 < 32) :
    Nat.testBit ((a &&& (u32mask ^^^ (3 <<< sp))) ||| (m <<< sp)) (sp + 1) =
      Nat.testBit m 1 := by
  have hd : sp + 1 - sp = 1 := by omega
  have h3 : Nat.testBit (3 <<< sp) (sp + 1) = true := by
    rw [Nat.testBit_shiftLeft]
    simp [hd]
    decide
  simp [Nat.testBit_or, Nat.testBit_and, Nat.testBit_xor, h3,
    testBit_u32mask (sp + 1) hsp, Nat.testBit_shiftLeft, hd]

/-- Bit pattern of the valid bit constant. -/
lemma testBit_VALID (n : Nat) :
    Nat.testBit QCA8K_VTU_FUNC0_VALID n = decide (20 = n) := by
  rw [show QCA8K_VTU_FUNC0_VALID = 2 ^ 20 from rfl, Nat.testBit_two_pow]

/-- Bit pattern of the independent VLAN learning bit constant. -/
lemma testBit_IVL (n : Nat) :
    Nat.testBit QCA8K_VTU_FUNC0_IVL_EN n = decide (19 = n) := by
  rw [show QCA8K_VTU_FUNC0_IVL_EN = 2 ^ 19 from rfl, Nat.testBit_two_pow]

/-- First state of the merge scenario: port 2 joins vid 100 untagged,
starting from an empty table. -/
def vlanAddDemo1 : VtuState := (qca8k_vlan_add ⟨0, fun _ => 0⟩ 2 100 true).1

/-- Second state of the merge scenario: port 3 then joins vid 100 tagged. -/
def vlanAddDemo2 : VtuState := (qca8k_vlan_add vlanAddDemo1 3 100 false).1

/-- Claim C1: for every port p, VLAN id vid different from 0 and untagged
flag, qca8k_vlan_add first issues a VTU READ for vid and then a LOAD, sets
the egress mode field of port p of the entry of vid to untagged or tagged,
sets the valid and independent VLAN learning bits, leaves the egress mode
of every other port of that entry unchanged and every other entry of the
table unchanged; in particular adding port 2 untagged and then port 3
tagged to vid 100 leaves port 2 untagged and port 3 tagged simultaneously
in the same entry. -/
theorem qca8k_vlan_add_merge (s : VtuState) (p vid : Nat) (untagged : Bool)
    (hp : p < QCA8K_NUM_PORTS) (hvid : vid ≠ 0) :
    (qca8k_vlan_add s p vid untagged).2 = [VtuCmd.read vid, VtuCmd.load vid] ∧
    egModeOf ((qca8k_vlan_add s p vid untagged).1.table vid) p =
      (if untagged then QCA8K_VTU_FUNC0_EG_MODE_UNTAG else QCA8K_VTU_FUNC0_EG_MODE_TAG) ∧
    (∀ q, q < QCA8K_NUM_PORTS → q ≠ p →
      egModeOf ((qca8k_vlan_add s p vid untagged).1.table vid) q =
        egModeOf (s.table vid) q) ∧
    Nat.testBit ((qca8k_vlan_add s p vid untagged).1.table vid) 20 = true ∧
    Nat.testBit ((qca8k_vlan_add s p vid untagged).1.table vid) 19 = true ∧
    (∀ v, v ≠ vid → (qca8k_vlan_add s p vid untagged).1.table v = s.table v) ∧
    egModeOf (vlanAddDemo2.table 100) 2 = QCA8K_VTU_FUNC0_EG_MODE_UNTAG ∧
    egModeOf (vlanAddDemo2.table 100) 3 = QCA8K_VTU_FUNC0_EG_MODE_TAG := by
  have hp7 : p < 7 := hp
  have htab : (qca8k_vlan_add s p vid untagged).1.table vid =
      ((s.table vid ||| QCA8K_VTU_FUNC0_VALID ||| QCA8K_VTU_FUNC0_IVL_EN) &&&
        (u32mask ^^^ (3 <<< (4 + p * 2)))) |||
      ((if untagged then 1 else 2) <<< (4 + p * 2)) := by
    simp only [qca8k_vlan_add, if_neg hvid, qca8k_vlan_access]
    cases untagged <;>
      simp [QCA8K_VTU_FUNC0_EG_MODE_S, QCA8K_VTU_FUNC0_EG_MODE_MASK,
        QCA8K_VTU_FUNC0_EG_MODE_UNTAG, QCA8K_VTU_FUNC0_EG_MODE_TAG]
  refine ⟨by simp [qca8k_vlan_add, hvid], ?_, ?_, ?_, ?_, ?_, by decide, by decide⟩
  · rw [htab]
    unfold egModeOf QCA8K_VTU_FUNC0_EG_MODE_S QCA8K_VTU_FUNC0_EG_MODE_MASK
    rw [and3_shift, testBit_vmerge_lo _ _ _ (by omega),
      testBit_vmerge_hi _ _ _ (by omega)]
    cases untagged <;> decide
  · intro q hq hqp
    have hq7 : q < 7 := hq
    rw [htab]
    unfold egModeOf QCA8K_VTU_FUNC0_EG_MODE_S QCA8K_VTU_FUNC0_EG_MODE_MASK
    rw [and3_shift, and3_shift]
    have hm : (if untagged then 1 else 2) < 4 := by cases untagged <;> decide
    have b0 : Nat.testBit (((s.table vid ||| QCA8K_VTU_FUNC0_VALID |||
        QCA8K_VTU_FUNC0_IVL_EN) &&& (u32mask ^^^ (3 <<< (4 + p * 2)))) |||
        ((if untagged then 1 else 2) <<< (4 + p * 2))) (4 + q * 2) =
        Nat.testBit (s.table vid) (4 + q * 2) := by
      rw [testBit_vmerge _ _ _ _ (by omega) (by omega) (by omega) hm]
      have h20 : (20 : Nat) ≠ 4 + q * 2 := by omega
      have h19 : (19 : Nat) ≠ 4 + q * 2 := by omega
      simp [Nat.testBit_or, testBit_VALID, testBit_IVL, h20, h19]
    have b1 : Nat.testBit (((s.table vid ||| QCA8K_VTU_FUNC0_VALID |||
        QCA8K_VTU_FUNC0_IVL_EN) &&& (u32mask ^^^ (3 <<< (4 + p * 2)))) |||
        ((if untagged then 1 else 2) <<< (4 + p * 2))) (4 + q * 2 + 1) =
        Nat.testBit (s.table vid) (4 + q * 2 + 1) := by
      rw [testBit_vmerge _ _ _ _ (by omega) (by omega) (by omega) hm]
      have h20 : (20 : Nat) ≠ 4 + q * 2 + 1 := by omega
      have h19 : (19 : Nat) ≠ 4 + q * 2 + 1 := by omega
      simp [Nat.testBit_or, testBit_VALID, testBit_IVL, h20, h19]
    rw [b0, b1]
  · rw [htab]
    have hm : (if untagged then 1 else 2) < 4 := by cases untagged <;> decide
    rw [testBit_vmerge _ _ _ _ (by omega) (by omega) (by omega) hm]
    simp [Nat.testBit_or, testBit_VALID]
  · rw [htab]
    have hm : (if untagged then 1 else 2) < 4 := by cases untagged <;> decide
    rw [testBit_vmerge _ _ _ _ (by omega) (by omega) (by omega) hm]
    simp [Nat.testBit_or, testBit_IVL]
  · intro v hv
    simp only [qca8k_vlan_add, if_neg hvid, qca8k_vlan_access]
    simp [hv]

/-- Witness for claim C1 at port 2, vid 100, untagged. -/
theorem qca8k_vlan_add_merge_witness :
    (qca8k_vlan_add ⟨0, fun _ => 0⟩ 2 100 true).2 =
      [VtuCmd.read 100, VtuCmd.load 100] :=
  (qca8k_vlan_add_merge ⟨0, fun _ => 0⟩ 2 100 true (by decide) (by decide)).1

/-- A two bit field read back equals 3 exactly when both bits are set. -/
lemma field_three_iff (x s : Nat) :
    ((x >>> s) &&& 3 = 3) ↔
      (Nat.testBit x s = true ∧ Nat.testBit x (s + 1) = true) := by
  rw [and3_shift]
  rcases h0 : Nat.testBit x s <;> rcases h1 : Nat.testBit x (s + 1) <;> simp

/-- Keeping all bits of the two bit mask at s equals having both bits. -/
lemma and_three_eq_iff (x s : Nat) :
    (x &&& (3 <<< s) = 3 <<< s) ↔
      (Nat.testBit x s = true ∧ Nat.testBit x (s + 1) = true) := by
  have e0 : Nat.testBit (3 <<< s) s = true := by
    rw [Nat.testBit_shiftLeft]
    simp
  have e1 : Nat.testBit (3 <<< s) (s + 1) = true := by
    have hd : s + 1 - s = 1 := by omega
    rw [Nat.testBit_shiftLeft]
    simp [hd]
    decide
  constructor
  · intro h
    have h0 := congrArg (fun y => Nat.testBit y s) h
    have h1 := congrArg (fun y => Nat.testBit y (s + 1)) h
    simp only [Nat.testBit_and, e0, e1, Bool.and_true] at h0 h1
    exact ⟨h0, h1⟩
  · rintro ⟨h0, h1⟩
    apply Nat.eq_of_testBit_eq
    intro n
    by_cases f0 : n = s
    · subst f0
      simp [Nat.testBit_and, h0, e0]
    · by_cases f1 : n = s + 1
      · subst f1
        simp [Nat.testBit_and, h1, e1]
      · simp [Nat.testBit_and, testBit_small_shift 3 s n (by norm_num) f0 f1]

/-- The last-member check of qca8k_vlan_del holds exactly when every port
of the entry image has egress mode not-a-member. -/
lemma vlan_del_check_iff (reg : Nat) :
    ((List.range QCA8K_NUM_PORTS).all fun i =>
      reg &&& (QCA8K_VTU_FUNC0_EG_MODE_NOT <<< QCA8K_VTU_FUNC0_EG_MODE_S i) ==
        QCA8K_VTU_FUNC0_EG_MODE_NOT <<< QCA8K_VTU_FUNC0_EG_MODE_S i) = true ↔
    (∀ i, i < QCA8K_NUM_PORTS →
      egModeOf reg i = QCA8K_VTU_FUNC0_EG_MODE_NOT) := by
  rw [List.all_eq_true]
  unfold egModeOf QCA8K_VTU_FUNC0_EG_MODE_NOT QCA8K_VTU_FUNC0_EG_MODE_MASK
  constructor
  · intro h i hi
    have hm := h i (List.mem_range.mpr hi)
    rw [beq_iff_eq] at hm
    exact (field_three_iff reg (QCA8K_VTU_FUNC0_EG_MODE_S i)).mpr
      ((and_three_eq_iff reg (QCA8K_VTU_FUNC0_EG_MODE_S i)).mp hm)
  · intro h i hi
    rw [beq_iff_eq]
    exact (and_three_eq_iff reg (QCA8K_VTU_FUNC0_EG_MODE_S i)).mpr
      ((field_three_iff reg (QCA8K_VTU_FUNC0_EG_MODE_S i)).mp
        (h i (List.mem_range.mp hi)))

/-- Claim C2: qca8k_vlan_del reads the entry of vid, sets the egress mode
of port p to not-a-member while leaving every other port unchanged, and
then purges the entry (so a follow-up presence query reports the vid
absent) when no port remains a member, or writes the modified entry back
with LOAD when some port remains a member. -/
theorem qca8k_vlan_del_last_member_purges (s : VtuState) (p vid : Nat)
    (hp : p < QCA8K_NUM_PORTS) :
    egModeOf (vlanDelEntry (s.table vid) p) p = QCA8K_VTU_FUNC0_EG_MODE_NOT ∧
    (∀ q, q < QCA8K_NUM_PORTS → q ≠ p →
      egModeOf (vlanDelEntry (s.table vid) p) q = egModeOf (s.table vid) q) ∧
    ((∀ i, i < QCA8K_NUM_PORTS →
        egModeOf (vlanDelEntry (s.table vid) p) i = QCA8K_VTU_FUNC0_EG_MODE_NOT) →
      (qca8k_vlan_del s p vid).2 = [VtuCmd.read vid, VtuCmd.purge vid] ∧
      (qca8k_vlan_del s p vid).1.table vid = 0 ∧
      vtuPresent (qca8k_vlan_del s p vid).1 vid = false) ∧
    ((¬ ∀ i, i < QCA8K_NUM_PORTS →
        egModeOf (vlanDelEntry (s.table vid) p) i = QCA8K_VTU_FUNC0_EG_MODE_NOT) →
      (qca8k_vlan_del s p vid).2 = [VtuCmd.read vid, VtuCmd.load vid] ∧
      (qca8k_vlan_del s p vid).1.table vid = vlanDelEntry (s.table vid) p) := by
  have hp7 : p < 7 := hp
  refine ⟨?_, ?_, ?_, ?_⟩
  · unfold vlanDelEntry egModeOf QCA8K_VTU_FUNC0_EG_MODE_S
      QCA8K_VTU_FUNC0_EG_MODE_MASK QCA8K_VTU_FUNC0_EG_MODE_NOT
    rw [and3_shift, testBit_vmerge_lo _ _ _ (by omega),
      testBit_vmerge_hi _ _ _ (by omega)]
    decide
  · intro q hq hqp
    have hq7 : q < 7 := hq
    unfold vlanDelEntry egModeOf QCA8K_VTU_FUNC0_EG_MODE_S
      QCA8K_VTU_FUNC0_EG_MODE_MASK QCA8K_VTU_FUNC0_EG_MODE_NOT
    rw [and3_shift, and3_shift,
      testBit_vmerge _ _ _ _ (by omega) (by omega) (by omega) (by norm_num),
      testBit_vmerge _ _ _ _ (by omega) (by omega) (by omega) (by norm_num)]
  · intro h
    have hd := (vlan_del_check_iff (vlanDelEntry (s.table vid) p)).mpr h
    simp only [qca8k_vlan_del, qca8k_vlan_access] at hd ⊢
    rw [if_pos hd]
    refine ⟨rfl, by simp, ?_⟩
    unfold vtuPresent
    simp
  · intro h
    have hd : ((List.range QCA8K_NUM_PORTS).all fun i =>
        vlanDelEntry ((qca8k_vlan_access s (.read vid)).func0) p &&&
          (QCA8K_VTU_FUNC0_EG_MODE_NOT <<< QCA8K_VTU_FUNC0_EG_MODE_S i) ==
          QCA8K_VTU_FUNC0_EG_MODE_NOT <<< QCA8K_VTU_FUNC0_EG_MODE_S i) = false := by
      rw [Bool.eq_false_iff]
      intro hc
      exact h ((vlan_del_check_iff _).mp hc)
    simp only [qca8k_vlan_del, qca8k_vlan_access] at hd ⊢
    rw [if_neg (by simp [hd])]
    exact ⟨rfl, by simp⟩

/-- Witness for claim C2 at port 2, vid 100, empty table. -/
theorem qca8k_vlan_del_last_member_purges_witness :
    egModeOf (vlanDelEntry ((⟨0, fun _ => 0⟩ : VtuState).table 100) 2) 2 =
      QCA8K_VTU_FUNC0_EG_MODE_NOT :=
  (qca8k_vlan_del_last_member_purges ⟨0, fun _ => 0⟩ 2 100 (by decide)).1

/-- Modelled from the spec: capacity of the FDB table (missing header
qca8k.h; spec section 4.3 bounds the dump loop by the table capacity,
2048 records on this chip family). -/
def QCA8K_NUM_FDB_RECORDS : Nat := 2048

/-- Modelled from the spec: aging value of a static FDB entry (missing
header qca8k.h; spec section 3 says the aging byte distinguishes dynamic
from static entries and uses 0 as the end-of-table sentinel). -/
def QCA8K_ATU_STATUS_STATIC : Nat := 0xf

/-- One FDB entry as read back from the ATU data registers by
qca8k_fdb_read: MAC address packed as one number, VLAN id, port mask and
the aging byte. -/
structure QCA8KFdb where
  vid : Nat
  aging : Nat
  port_mask : Nat
  mac : Nat
deriving Repr, DecidableEq

/-- The while loop of qca8k_port_fdb_dump (qca8k-common.c lines 707..715).
The hardware walk is an oracle giving the outcome of the k-th
qca8k_fdb_next call: none for a failed table access (the loop condition
becomes false), some entry otherwise.  cb is the caller supplied visitor
with its is_static flag; a nonzero visitor result stops the walk.  The
returned number counts the qca8k_fdb_next calls made. -/
def fdbDumpLoop (hw : Nat → Option QCA8KFdb) (cb : QCA8KFdb → Bool → Int) :
    Nat → Nat → Nat → Nat
  | 0, _, iters => iters
  | cnt + 1, k, iters =>
    match hw k with
    | none => iters + 1
    | some e =>
      if e.aging = 0 then iters + 1
      else if cb e (e.aging == QCA8K_ATU_STATUS_STATIC) ≠ 0 then iters + 1
      else fdbDumpLoop hw cb cnt (k + 1) (iters + 1)

/-- Embedding of qca8k_port_fdb_dump (qca8k-common.c lines 697..719): the
loop counter starts at the table capacity and the function returns 0 on
every path (the source ends with return 0).  The pair is the returned
value together with the number of qca8k_fdb_next calls. -/
def qca8k_port_fdb_dump (hw : Nat → Option QCA8KFdb)
    (cb : QCA8KFdb → Bool → Int) : Int × Nat :=
  (0, fdbDumpLoop hw cb QCA8K_NUM_FDB_RECORDS 0 0)

/-- Unfolding of one iteration of the dump loop. -/
lemma fdbDumpLoop_succ (hw : Nat → Option QCA8KFdb) (cb : QCA8KFdb → Bool → Int)
    (cnt k iters : Nat) :
    fdbDumpLoop hw cb (cnt + 1) k iters = match hw k with
      | none => iters + 1
      | some e =>
        if e.aging = 0 then iters + 1
        else if cb e (e.aging == QCA8K_ATU_STATUS_STATIC) ≠ 0 then iters + 1
        else fdbDumpLoop hw cb cnt (k + 1) (iters + 1) := rfl

/-- The dump loop makes at most fuel many qca8k_fdb_next calls. -/
lemma fdbDumpLoop_le (hw : Nat → Option QCA8KFdb) (cb : QCA8KFdb → Bool → Int) :
    ∀ fuel k iters, fdbDumpLoop hw cb fuel k iters ≤ iters + fuel := by
  intro fuel
  induction fuel with
  | zero =>
    intro k iters
    simp [fdbDumpLoop]
  | succ n ih =>
    intro k iters
    rw [fdbDumpLoop_succ]
    split
    · show iters + 1 ≤ iters + (n + 1)
      omega
    · rename_i e heq
      show (if e.aging = 0 then iters + 1
        else if cb e (e.aging == QCA8K_ATU_STATUS_STATIC) ≠ 0 then iters + 1
        else fdbDumpLoop hw cb n (k + 1) (iters + 1)) ≤ iters + (n + 1)
      by_cases ha : e.aging = 0
      · rw [if_pos ha]
        omega
      · rw [if_neg ha]
        by_cases hc : cb e (e.aging == QCA8K_ATU_STATUS_STATIC) ≠ 0
        · rw [if_pos hc]
          omega
        · rw [if_neg hc]
          have := ih (k + 1) (iters + 1)
          omega

/-- On a walk that never fails, never meets the aging sentinel and whose
visitor never stops, the dump loop spends all its fuel. -/
lemma fdbDumpLoop_full (hw : Nat → Option QCA8KFdb) (cb : QCA8KFdb → Bool → Int)
    (h : ∀ k, ∃ e, hw k = some e ∧ e.aging ≠ 0 ∧
      cb e (e.aging == QCA8K_ATU_STATUS_STATIC) = 0) :
    ∀ fuel k iters, fdbDumpLoop hw cb fuel k iters = iters + fuel := by
  intro fuel
  induction fuel with
  | zero =>
    intro k iters
    simp [fdbDumpLoop]
  | succ n ih =>
    intro k iters
    obtain ⟨e, he, ha, hc⟩ := h k
    rw [fdbDumpLoop_succ, he]
    show (if e.aging = 0 then iters + 1
      else if cb e (e.aging == QCA8K_ATU_STATUS_STATIC) ≠ 0 then iters + 1
      else fdbDumpLoop hw cb n (k + 1) (iters + 1)) = iters + (n + 1)
    rw [if_neg ha, if_neg (by simp [hc]), ih]
    omega

/-- Claim C3 (amended): qca8k_port_fdb_dump stops at an entry with aging 0,
when the visitor requests a stop, or after at most table capacity many
qca8k_fdb_next calls; a walk that never meets the sentinel makes exactly
table capacity many calls, but the function returns 0 on every path, the
same value as a normal completion, so no distinct exhausted condition is
signalled. -/
theorem qca8k_port_fdb_dump_bounded (hw : Nat → Option QCA8KFdb)
    (cb : QCA8KFdb → Bool → Int) :
    (qca8k_port_fdb_dump hw cb).2 ≤ QCA8K_NUM_FDB_RECORDS ∧
    ((∀ k, ∃ e, hw k = some e ∧ e.aging ≠ 0 ∧
        cb e (e.aging == QCA8K_ATU_STATUS_STATIC) = 0) →
      (qca8k_port_fdb_dump hw cb).2 = QCA8K_NUM_FDB_RECORDS) ∧
    (∀ e, hw 0 = some e → e.aging = 0 → (qca8k_port_fdb_dump hw cb).2 = 1) ∧
    (∀ e, hw 0 = some e → e.aging ≠ 0 →
      cb e (e.aging == QCA8K_ATU_STATUS_STATIC) ≠ 0 →
      (qca8k_port_fdb_dump hw cb).2 = 1) ∧
    (qca8k_port_fdb_dump hw cb).1 = 0 := by
  refine ⟨?_, ?_, ?_, ?_, rfl⟩
  · have := fdbDumpLoop_le hw cb QCA8K_NUM_FDB_RECORDS 0 0
    simpa [qca8k_port_fdb_dump] using this
  · intro h
    have := fdbDumpLoop_full hw cb h QCA8K_NUM_FDB_RECORDS 0 0
    simpa [qca8k_port_fdb_dump] using this
  · intro e he ha
    show fdbDumpLoop hw cb QCA8K_NUM_FDB_RECORDS 0 0 = 1
    rw [show QCA8K_NUM_FDB_RECORDS = 2047 + 1 from rfl, fdbDumpLoop_succ, he]
    show (if e.aging = 0 then 0 + 1
      else if cb e (e.aging == QCA8K_ATU_STATUS_STATIC) ≠ 0 then 0 + 1
      else fdbDumpLoop hw cb 2047 (0 + 1) (0 + 1)) = 1
    rw [if_pos ha]
  · intro e he ha hc
    show fdbDumpLoop hw cb QCA8K_NUM_FDB_RECORDS 0 0 = 1
    rw [show QCA8K_NUM_FDB_RECORDS = 2047 + 1 from rfl, fdbDumpLoop_succ, he]
    show (if e.aging = 0 then 0 + 1
      else if cb e (e.aging == QCA8K_ATU_STATUS_STATIC) ≠ 0 then 0 + 1
      else fdbDumpLoop hw cb 2047 (0 + 1) (0 + 1)) = 1
    rw [if_neg ha, if_pos hc]

/-- An everywhere valid dynamic entry: a hardware walk that never reaches
the aging sentinel. -/
def fdbHwBusy : Nat → Option QCA8KFdb := fun _ => some ⟨1, 1, 1, 0⟩

/-- A walk whose very first entry is the aging sentinel: the normal
completion of an empty table. -/
def fdbHwSentinel : Nat → Option QCA8KFdb := fun _ => some ⟨0, 0, 0, 0⟩

/-- A visitor that never requests a stop. -/
def cbZero : QCA8KFdb → Bool → Int := fun _ _ => 0

/-- Counterexample to claim C3 as stated: a table walk that never meets
the aging sentinel makes exactly 2048 calls and then returns 0, the very
same value qca8k_port_fdb_dump returns on a normal sentinel-terminated
walk, so the exhausted walk is not signalled distinctly. -/
theorem qca8k_port_fdb_dump_exhausted_not_distinct :
    (qca8k_port_fdb_dump fdbHwBusy cbZero).2 = QCA8K_NUM_FDB_RECORDS ∧
    (qca8k_port_fdb_dump fdbHwBusy cbZero).1 =
      (qca8k_port_fdb_dump fdbHwSentinel cbZero).1 := by
  constructor
  · have := fdbDumpLoop_full fdbHwBusy cbZero
      (fun k => ⟨⟨1, 1, 1, 0⟩, rfl, by decide, rfl⟩) QCA8K_NUM_FDB_RECORDS 0 0
    simpa [qca8k_port_fdb_dump] using this
  · rfl

/-- Witness for claim C3 on the sentinel walk: the dump stops after one
qca8k_fdb_next call. -/
theorem qca8k_port_fdb_dump_bounded_witness :
    (qca8k_port_fdb_dump fdbHwSentinel cbZero).2 = 1 :=
  (qca8k_port_fdb_dump_bounded fdbHwSentinel cbZero).2.2.1 ⟨0, 0, 0, 0⟩ rfl rfl

/-- Linux errno value ENOMEM, the out of memory code used by the VLAN
table full path. -/
def ENOMEM : Int := 12

/-- Linux errno value ETIMEDOUT, returned by a busy wait that exceeds its
bound. -/
def ETIMEDOUT : Int := 110

/-- Modelled from the spec: ATU_FUNC table full status bit (missing
header qca8k.h; spec section 4.3 says LOAD checks a table full status bit
of the command register, bit 12 on this chip family). -/
def QCA8K_ATU_FUNC_FULL : Nat := 2 ^ 12

/-- Modelled from the spec: VTU_FUNC1 table full status bit (missing
header qca8k.h; spec section 4.3, bit 4 on this chip family). -/
def QCA8K_VTU_FUNC1_FULL : Nat := 2 ^ 4

/-- FDB commands of qca8k_fdb_access; the numeric encoding written into
the command word does not matter here because the hardware response is an
oracle. -/
inductive FdbCmd where
  | flush | next | load | purge
deriving DecidableEq, Repr

/-- Oracle for one ATU or VTU command sequence: result of the command
register write, result of the busy wait, and result plus value of the
read back of the command register after completion. -/
structure TableOpHw where
  write_ret : Int
  wait_ret : Int
  read_ret : Int
  read_val : Nat
deriving Repr, DecidableEq

/-- Embedding of the return value of qca8k_fdb_access (qca8k-common.c
lines 130..164): a failed command write or busy wait propagates its code;
for LOAD the command register is read back and a set table full bit makes
the function return -1; every other outcome returns 0. -/
def qca8k_fdb_access (hw : TableOpHw) (cmd : FdbCmd) : Int :=
  if hw.write_ret ≠ 0 then hw.write_ret
  else if hw.wait_ret ≠ 0 then hw.wait_ret
  else if cmd = .load then
    if hw.read_ret < 0 then hw.read_ret
    else if hw.read_val &&& QCA8K_ATU_FUNC_FULL ≠ 0 then -1
    else 0
  else 0

/-- Embedding of qca8k_fdb_add (qca8k-common.c lines 179..191): after
staging the entry it runs one LOAD access and returns its result
unchanged, with no retry. -/
def qca8k_fdb_add (hw : TableOpHw) : Int :=
  qca8k_fdb_access hw .load

/-- Discriminator for the LOAD command of the VTU engine. -/
def VtuCmd.isLoad : VtuCmd → Bool
  | .load _ => true
  | _ => false

/-- Embedding of the return value of qca8k_vlan_access (qca8k-common.c
lines 214..245); the only difference from the FDB path is that a set
table full bit on LOAD returns -ENOMEM. -/
def qca8k_vlan_access_ret (hw : TableOpHw) (cmd : VtuCmd) : Int :=
  if hw.write_ret ≠ 0 then hw.write_ret
  else if hw.wait_ret ≠ 0 then hw.wait_ret
  else if cmd.isLoad then
    if hw.read_ret < 0 then hw.read_ret
    else if hw.read_val &&& QCA8K_VTU_FUNC1_FULL ≠ 0 then -ENOMEM
    else 0
  else 0

/-- Counterexample to claim C4 as stated: with the write, the busy wait
and the read back succeeding and the table full bit set, the FDB LOAD
path returns the bare code -1, which is not the resource exhausted code
-ENOMEM; the analogous VLAN LOAD path does return -ENOMEM. -/
theorem qca8k_fdb_access_full_not_enomem :
    qca8k_fdb_access ⟨0, 0, 0, QCA8K_ATU_FUNC_FULL⟩ .load = -1 ∧
    qca8k_fdb_access ⟨0, 0, 0, QCA8K_ATU_FUNC_FULL⟩ .load ≠ -ENOMEM ∧
    qca8k_vlan_access_ret ⟨0, 0, 0, QCA8K_VTU_FUNC1_FULL⟩ (.load 1) = -ENOMEM := by
  refine ⟨by decide, by decide, by decide⟩

/-- Claim C4 (amended): when the FDB LOAD busy wait completes and the read
back of the command register shows the table full bit, qca8k_fdb_add
fails with the code -1, which differs from the busy wait timeout code
-ETIMEDOUT and from success, and is the unchanged result of the single
qca8k_fdb_access call (no retry); the VLAN LOAD path reports table full
as the dedicated resource exhausted code -ENOMEM instead. -/
theorem qca8k_fdb_add_table_full (hw : TableOpHw)
    (hwr : hw.write_ret = 0) (hwa : hw.wait_ret = 0) (hrd : hw.read_ret = 0)
    (hfull : hw.read_val &&& QCA8K_ATU_FUNC_FULL ≠ 0) :
    qca8k_fdb_add hw = -1 ∧
    (∀ hw2 : TableOpHw, qca8k_fdb_add hw2 = qca8k_fdb_access hw2 .load) ∧
    (-1 : Int) ≠ -ETIMEDOUT ∧ (-1 : Int) ≠ 0 ∧
    (∀ hw2 : TableOpHw, hw2.write_ret = 0 → hw2.wait_ret = 0 →
      hw2.read_ret = 0 → hw2.read_val &&& QCA8K_VTU_FUNC1_FULL ≠ 0 →
      ∀ vid, qca8k_vlan_access_ret hw2 (.load vid) = -ENOMEM) := by
  refine ⟨?_, fun hw2 => rfl, by decide, by decide, ?_⟩
  · unfold qca8k_fdb_add qca8k_fdb_access
    rw [if_neg (by simp [hwr]), if_neg (by simp [hwa]), if_pos rfl,
      if_neg (by simp [hrd]), if_pos hfull]
  · intro hw2 h1 h2 h3 h4 vid
    unfold qca8k_vlan_access_ret
    rw [if_neg (by simp [h1]), if_neg (by simp [h2])]
    simp only [VtuCmd.isLoad, if_true]
    rw [if_neg (by simp [h3]), if_pos h4]

/-- Witness for claim C4 at the concrete full-bit oracle. -/
theorem qca8k_fdb_add_table_full_witness :
    qca8k_fdb_add ⟨0, 0, 0, QCA8K_ATU_FUNC_FULL⟩ = -1 :=
  (qca8k_fdb_add_table_full ⟨0, 0, 0, QCA8K_ATU_FUNC_FULL⟩ rfl rfl rfl
    (by decide)).1

/-- Modelled from the spec: the membership field of the port lookup
control register covers one bit per port, bits 0..6 (missing header
qca8k.h; spec section 3 says the bridge membership bitmask ranges over the
7 ports). -/
def QCA8K_PORT_LOOKUP_MEMBER : Nat := 0x7f

/-- Pointwise register file update, one 32 bit lookup control register per
port. -/
def updateReg (st : Nat → Nat) (i v : Nat) : Nat → Nat :=
  fun j => if j = i then v else st j

/-- One iteration of the loop of qca8k_port_bridge_join (qca8k-common.c
lines 570..583): f tells whether port i is in the same bridge (the
dsa_to_port bridge_dev comparison, an input from the framework); a bridge
member gets the joining port added to its lookup register, and every
member other than the joining port itself is accumulated into port_mask.
The accumulator carries the register file and port_mask. -/
def bridgeJoinStep (f : Nat → Bool) (port : Nat) (acc : (Nat → Nat) × Nat)
    (i : Nat) : (Nat → Nat) × Nat :=
  if f i then
    (updateReg acc.1 i (acc.1 i ||| (1 <<< port)),
      if i ≠ port then acc.2 ||| (1 <<< i) else acc.2)
  else acc

/-- The index sequence of the join loop: for i from 1 to QCA8K_NUM_PORTS-1. -/
def bridgePorts : List Nat := [1, 2, 3, 4, 5, 6]

/-- Embedding of qca8k_port_bridge_join (qca8k-common.c lines 563..590) on
ideal hardware: port_mask starts as the CPU port bit, the loop updates the
other members, and the final read-modify-write replaces the membership
field of the joining port by the accumulated mask. -/
def qca8k_port_bridge_join (f : Nat → Bool) (port : Nat) (st : Nat → Nat) :
    Nat → Nat :=
  let acc := bridgePorts.foldl (bridgeJoinStep f port) (st, 1 <<< QCA8K_CPU_PORT)
  updateReg acc.1 port
    ((acc.1 port &&& (u32mask ^^^ QCA8K_PORT_LOOKUP_MEMBER)) ||| acc.2)

/-- A single port bit: BIT(a) has exactly bit a set. -/
lemma testBit_bit (a q : Nat) : Nat.testBit (1 <<< a) q = decide (a = q) := by
  rw [Nat.shiftLeft_eq, one_mul, Nat.testBit_two_pow]

/-- A port outside the loop index list keeps its lookup register. -/
lemma bjFold_fst_not_mem (f : Nat → Bool) (port : Nat) (l : List Nat)
    (j : Nat) (hj : j ∉ l) :
    ∀ st pm, (l.foldl (bridgeJoinStep f port) (st, pm)).1 j = st j := by
  induction l with
  | nil => intro st pm; rfl
  | cons a t ih =>
    intro st pm
    have hja : j ≠ a := fun h => hj (by simp [h])
    have hjt : j ∉ t := fun h => hj (by simp [h])
    rw [List.foldl_cons]
    by_cases hf : f a = true
    · have hstep : bridgeJoinStep f port (st, pm) a =
          (updateReg st a (st a ||| (1 <<< port)),
            if a ≠ port then pm ||| (1 <<< a) else pm) := by
        simp [bridgeJoinStep, hf]
      rw [hstep, ih hjt]
      simp [updateReg, hja]
    · have hstep : bridgeJoinStep f port (st, pm) a = (st, pm) := by
        simp [bridgeJoinStep, hf]
      rw [hstep, ih hjt]

/-- A port inside the loop index list gets the joining port bit added to
its lookup register exactly when it is a bridge member. -/
lemma bjFold_fst_mem (f : Nat → Bool) (port : Nat) (l : List Nat)
    (hnd : l.Nodup) (j : Nat) (hj : j ∈ l) :
    ∀ st pm, (l.foldl (bridgeJoinStep f port) (st, pm)).1 j =
      (if f j then st j ||| (1 <<< port) else st j) := by
  induction l with
  | nil => cases hj
  | cons a t ih =>
    intro st pm
    rw [List.foldl_cons]
    rcases List.mem_cons.mp hj with rfl | hjt
    · have hjt : j ∉ t := (List.nodup_cons.mp hnd).1
      by_cases hf : f j = true
      · have hstep : bridgeJoinStep f port (st, pm) j =
            (updateReg st j (st j ||| (1 <<< port)),
              if j ≠ port then pm ||| (1 <<< j) else pm) := by
          simp [bridgeJoinStep, hf]
        rw [hstep, bjFold_fst_not_mem f port t j hjt]
        simp [updateReg, hf]
      · have hstep : bridgeJoinStep f port (st, pm) j = (st, pm) := by
          simp [bridgeJoinStep, hf]
        rw [hstep, bjFold_fst_not_mem f port t j hjt]
        simp [hf]
    · have hnd' : t.Nodup := (List.nodup_cons.mp hnd).2
      have hja : j ≠ a := fun h => (List.nodup_cons.mp hnd).1 (h ▸ hjt)
      by_cases hf : f a = true
      · have hstep : bridgeJoinStep f port (st, pm) a =
            (updateReg st a (st a ||| (1 <<< port)),
              if a ≠ port then pm ||| (1 <<< a) else pm) := by
          simp [bridgeJoinStep, hf]
        rw [hstep, ih hnd' hjt]
        simp [updateReg, hja]
      · have hstep : bridgeJoinStep f port (st, pm) a = (st, pm) := by
          simp [bridgeJoinStep, hf]
        rw [hstep, ih hnd' hjt]

/-- Bits of the accumulated port_mask: the starting mask plus one bit per
bridge member of the index list other than the joining port. -/
lemma bjFold_snd (f : Nat → Bool) (port : Nat) (l : List Nat) (q : Nat) :
    ∀ st pm, (Nat.testBit ((l.foldl (bridgeJoinStep f port) (st, pm)).2) q = true ↔
      (Nat.testBit pm q = true ∨ (q ∈ l ∧ f q = true ∧ q ≠ port))) := by
  induction l with
  | nil => intro st pm; simp
  | cons a t ih =>
    intro st pm
    rw [List.foldl_cons]
    by_cases hf : f a = true
    · by_cases hap : a = port
      · subst hap
        have hstep : bridgeJoinStep f a (st, pm) a =
            (updateReg st a (st a ||| (1 <<< a)), pm) := by
          simp [bridgeJoinStep, hf]
        rw [hstep, ih]
        constructor
        · rintro (h | ⟨hq, hfq, hqp⟩)
          · exact Or.inl h
          · exact Or.inr ⟨by simp [hq], hfq, hqp⟩
        · rintro (h | ⟨hq, hfq, hqp⟩)
          · exact Or.inl h
          · rcases List.mem_cons.mp hq with rfl | hq
            · exact absurd rfl hqp
            · exact Or.inr ⟨hq, hfq, hqp⟩
      · have hstep : bridgeJoinStep f port (st, pm) a =
            (updateReg st a (st a ||| (1 <<< port)), pm ||| (1 <<< a)) := by
          simp [bridgeJoinStep, hf, hap]
        rw [hstep, ih]
        rw [Nat.testBit_or, testBit_bit]
        constructor
        · intro h
          rcases h with h | ⟨hq, hfq, hqp⟩
          · rcases Bool.or_eq_true_iff.mp h with h | h
            · exact Or.inl h
            · have : a = q := of_decide_eq_true h
              subst this
              exact Or.inr ⟨by simp, hf, hap⟩
          · exact Or.inr ⟨by simp [hq], hfq, hqp⟩
        · rintro (h | ⟨hq, hfq, hqp⟩)
          · exact Or.inl (by simp [h])
          · rcases List.mem_cons.mp hq with rfl | hq
            · exact Or.inl (by simp)
            · exact Or.inr ⟨hq, hfq, hqp⟩
    · have hstep : bridgeJoinStep f port (st, pm) a = (st, pm) := by
        simp [bridgeJoinStep, hf]
      rw [hstep, ih]
      constructor
      · rintro (h | ⟨hq, hfq, hqp⟩)
        · exact Or.inl h
        · exact Or.inr ⟨by simp [hq], hfq, hqp⟩
      · rintro (h | ⟨hq, hfq, hqp⟩)
        · exact Or.inl h
        · rcases List.mem_cons.mp hq with rfl | hq
          · rw [hfq] at hf
            exact absurd rfl hf
          · exact Or.inr ⟨hq, hfq, hqp⟩

/-- The loop index list is exactly the user ports 1..6. -/
lemma mem_bridgePorts (i : Nat) : i ∈ bridgePorts ↔ (1 ≤ i ∧ i < 7) := by
  simp [bridgePorts]
  omega

/-- The loop visits each port once. -/
lemma bridgePorts_nodup : bridgePorts.Nodup := by decide

/-- Bits of the membership field mask. -/
lemma testBit_member (q : Nat) :
    Nat.testBit QCA8K_PORT_LOOKUP_MEMBER q = decide (q < 7) := by
  have hh : QCA8K_PORT_LOOKUP_MEMBER = 2 ^ 7 - 1 := rfl
  rw [hh, Nat.testBit_two_pow_sub_one]

/-- Bridge membership oracle of the join scenario: ports B = 2 and C = 3
are in the bridge. -/
def bridgeDemoF : Nat → Bool := fun i => decide (i = 2 ∨ i = 3)

/-- Initial lookup registers of the join scenario: B and C are already
bridged to each other and to the CPU port, all other ports see only the
CPU port. -/
def bridgeDemoSt0 : Nat → Nat := fun i =>
  if i = 2 then 2 ^ 0 ||| 2 ^ 3 else if i = 3 then 2 ^ 0 ||| 2 ^ 2 else 2 ^ 0

/-- Scenario state after bridge_join(A = 1,
others B and C). -/
def bridgeDemoSt1 : Nat → Nat := qca8k_port_bridge_join bridgeDemoF 1 bridgeDemoSt0

/-- Scenario state after the further bridge_join(D = 4, others B and C). -/
def bridgeDemoSt2 : Nat → Nat := qca8k_port_bridge_join bridgeDemoF 4 bridgeDemoSt1

/-- Claim C5: bridge_join adds the joining port to the lookup register of
every other port of the bridge, leaves non-members and the CPU port
untouched, and sets the membership field of the joining port to exactly
the CPU port plus the other bridge members; joining A = 1 and then D = 4
to the bridge of B = 2 and C = 3 leaves B and C each with A, D and the
CPU port in their masks, and A and D each with B, C and the CPU port. -/
theorem qca8k_port_bridge_join_symmetric (f : Nat → Bool) (p : Nat)
    (st : Nat → Nat) (hp1 : 1 ≤ p) (hp : p < QCA8K_NUM_PORTS) :
    (∀ i, 1 ≤ i → i < QCA8K_NUM_PORTS → i ≠ p → f i = true →
      qca8k_port_bridge_join f p st i = st i ||| (1 <<< p)) ∧
    (∀ i, i ≠ p → i < QCA8K_NUM_PORTS → (i = 0 ∨ f i = false) →
      qca8k_port_bridge_join f p st i = st i) ∧
    (∀ q, q < QCA8K_NUM_PORTS →
      (Nat.testBit (qca8k_port_bridge_join f p st p) q = true ↔
        (q = QCA8K_CPU_PORT ∨ (1 ≤ q ∧ f q = true ∧ q ≠ p)))) ∧
    Nat.testBit (bridgeDemoSt2 2) 1 = true ∧
    Nat.testBit (bridgeDemoSt2 2) 4 = true ∧
    Nat.testBit (bridgeDemoSt2 2) 0 = true ∧
    Nat.testBit (bridgeDemoSt2 3) 1 = true ∧
    Nat.testBit (bridgeDemoSt2 3) 4 = true ∧
    Nat.testBit (bridgeDemoSt2 3) 0 = true ∧
    bridgeDemoSt2 1 &&& QCA8K_PORT_LOOKUP_MEMBER = 2 ^ 0 ||| 2 ^ 2 ||| 2 ^ 3 ∧
    bridgeDemoSt2 4 &&& QCA8K_PORT_LOOKUP_MEMBER = 2 ^ 0 ||| 2 ^ 2 ||| 2 ^ 3 := by
  refine ⟨?_, ?_, ?_, by decide, by decide, by decide, by decide, by decide,
    by decide, by decide, by decide⟩
  · intro i h1 h7 hip hfi
    simp only [qca8k_port_bridge_join, updateReg, if_neg hip]
    rw [bjFold_fst_mem f p bridgePorts bridgePorts_nodup i
      ((mem_bridgePorts i).mpr ⟨h1, h7⟩), if_pos hfi]
  · intro i hip h7 hcase
    simp only [qca8k_port_bridge_join, updateReg, if_neg hip]
    rcases hcase with h0 | hfi
    · rw [bjFold_fst_not_mem f p bridgePorts i (by simp [bridgePorts, h0])]
    · by_cases hmem : i ∈ bridgePorts
      · rw [bjFold_fst_mem f p bridgePorts bridgePorts_nodup i hmem,
          if_neg (by simp [hfi])]
      · rw [bjFold_fst_not_mem f p bridgePorts i hmem]
  · intro q hq
    have hq7 : q < 7 := hq
    simp only [qca8k_port_bridge_join, updateReg, if_pos rfl, if_true]
    rw [Nat.testBit_or, Nat.testBit_and, Nat.testBit_xor,
      testBit_u32mask q (by omega), testBit_member q]
    have hq7d : decide (q < 7) = true := by simpa using hq7
    rw [hq7d]
    simp only [Bool.true_xor, Bool.not_true, Bool.and_false, Bool.false_or]
    rw [bjFold_snd f p bridgePorts q st (1 <<< QCA8K_CPU_PORT), testBit_bit]
    show (decide (QCA8K_CPU_PORT = q) = true ∨ q ∈ bridgePorts ∧ f q = true ∧ q ≠ p) ↔ _
    constructor
    · rintro (h | ⟨hmem, hfq, hqp⟩)
      · exact Or.inl (of_decide_eq_true h).symm
      · exact Or.inr ⟨((mem_bridgePorts q).mp hmem).1, hfq, hqp⟩
    · rintro (rfl | ⟨h1, hfq, hqp⟩)
      · exact Or.inl (by simp)
      · exact Or.inr ⟨(mem_bridgePorts q).mpr ⟨h1, hq7⟩, hfq, hqp⟩

/-- Witness for claim C5: joining port 1 with members 2 and 3 sets bit 1
in the register of port 2. -/
theorem qca8k_port_bridge_join_symmetric_witness :
    qca8k_port_bridge_join bridgeDemoF 1 bridgeDemoSt0 2 =
      bridgeDemoSt0 2 ||| (1 <<< 1) :=
  (qca8k_port_bridge_join_symmetric bridgeDemoF 1 bridgeDemoSt0
      (by decide) (by decide)).1 2 (by decide) (by decide) (by decide) (by decide)

/-- Length of an Ethernet L2 header. -/
def ETH_HLEN : Int := 14

/-- Length of the Ethernet frame check sequence. -/
def ETH_FCS_LEN : Int := 4

/-- Embedding of qca8k_port_change_mtu (qca8k-common.c lines 640..654):
the new MTU is stored for the port, the loop computes the maximum stored
MTU over all ports starting from 0, and the single shared maximum frame
size register is written once with that maximum plus the L2 header and
FCS lengths.  The pair is the updated per port MTU array and the one
value written to the register. -/
def qca8k_port_change_mtu (pm : Nat → Int) (port : Nat) (new_mtu : Int) :
    (Nat → Int) × Int :=
  let pm2 := fun j => if j = port then new_mtu else pm j
  let mtu := (List.range QCA8K_NUM_PORTS).foldl
    (fun m i => if pm2 i > m then pm2 i else m) 0
  (pm2, mtu + ETH_HLEN + ETH_FCS_LEN)

/-- The running maximum never drops below its starting value. -/
lemma mtuFold_ge_init (g : Nat → Int) (l : List Nat) :
    ∀ m : Int, m ≤ l.foldl (fun m i => if g i > m then g i else m) m := by
  induction l with
  | nil => intro m; simp
  | cons a t ih =>
    intro m
    rw [List.foldl_cons]
    have step : m ≤ (if g a > m then g a else m) := by split <;> omega
    exact le_trans step (ih _)

/-- The running maximum dominates every visited value. -/
lemma mtuFold_ge_mem (g : Nat → Int) (l : List Nat) (i : Nat) (hi : i ∈ l) :
    ∀ m : Int, g i ≤ l.foldl (fun m i => if g i > m then g i else m) m := by
  induction l with
  | nil => cases hi
  | cons a t ih =>
    intro m
    rw [List.foldl_cons]
    rcases List.mem_cons.mp hi with rfl | hit
    · have step : g i ≤ (if g i > m then g i else m) := by split <;> omega
      exact le_trans step (mtuFold_ge_init g t _)
    · exact ih hit _

/-- The final maximum is the starting value or one of the visited values. -/
lemma mtuFold_cases (g : Nat → Int) (l : List Nat) :
    ∀ m : Int, l.foldl (fun m i => if g i > m then g i else m) m = m ∨
      ∃ i, i ∈ l ∧ l.foldl (fun m i => if g i > m then g i else m) m = g i := by
  induction l with
  | nil => intro m; exact Or.inl rfl
  | cons a t ih =>
    intro m
    rw [List.foldl_cons]
    rcases ih (if g a > m then g a else m) with h | ⟨i, hi, h⟩
    · rw [h]
      by_cases hc : g a > m
      · exact Or.inr ⟨a, by simp, by rw [if_pos hc]⟩
      · exact Or.inl (by rw [if_neg hc])
    · exact Or.inr ⟨i, by simp [hi], h⟩

/-- All ports request MTU 0 at the start of the MTU scenario. -/
def mtuDemo0 : Nat → Int := fun _ => 0

/-- Scenario: port 1 requests MTU 9000. -/
def mtuDemo1 : (Nat → Int) × Int := qca8k_port_change_mtu mtuDemo0 1 9000

/-- Scenario: port 2 then requests MTU 1500. -/
def mtuDemo2 : (Nat → Int) × Int := qca8k_port_change_mtu mtuDemo1.1 2 1500

/-- Scenario: port 1 then lowers its request to 1500. -/
def mtuDemo3 : (Nat → Int) × Int := qca8k_port_change_mtu mtuDemo2.1 1 1500

/-- Claim C6: change_mtu stores the requested MTU for the port and writes
the shared maximum frame size register once with the maximum stored MTU
across all ports plus L2 header and FCS lengths, so the written value
dominates every stored request plus overhead and equals one of them (or
the zero start); in the scenario, 9000 on port 1 then 1500 on port 2
leaves the register at 9018, and it drops to 1518 only when port 1 also
lowers its request. -/
theorem qca8k_port_change_mtu_max (pm : Nat → Int) (p : Nat) (m : Int)
    (hp : p < QCA8K_NUM_PORTS) :
    (qca8k_port_change_mtu pm p m).1 p = m ∧
    (∀ q, q < QCA8K_NUM_PORTS →
      (qca8k_port_change_mtu pm p m).1 q + (ETH_HLEN + ETH_FCS_LEN) ≤
        (qca8k_port_change_mtu pm p m).2) ∧
    ((qca8k_port_change_mtu pm p m).2 = 0 + ETH_HLEN + ETH_FCS_LEN ∨
      ∃ q, q ∈ List.range QCA8K_NUM_PORTS ∧
        (qca8k_port_change_mtu pm p m).2 =
          (qca8k_port_change_mtu pm p m).1 q + ETH_HLEN + ETH_FCS_LEN) ∧
    mtuDemo1.2 = 9000 + ETH_HLEN + ETH_FCS_LEN ∧
    mtuDemo2.2 = 9000 + ETH_HLEN + ETH_FCS_LEN ∧
    mtuDemo3.2 = 1500 + ETH_HLEN + ETH_FCS_LEN := by
  refine ⟨?_, ?_, ?_, by decide, by decide, by decide⟩
  · simp [qca8k_port_change_mtu]
  · intro q hq
    have h := mtuFold_ge_mem (fun j => if j = p then m else pm j)
      (List.range QCA8K_NUM_PORTS) q (List.mem_range.mpr hq) 0
    simp only [qca8k_port_change_mtu]
    omega
  · rcases mtuFold_cases (fun j => if j = p then m else pm j)
      (List.range QCA8K_NUM_PORTS) 0 with h | ⟨i, hi, h⟩
    · left
      simp only [qca8k_port_change_mtu]
      omega
    · right
      exact ⟨i, hi, by simp only [qca8k_port_change_mtu]; omega⟩

/-- Witness for claim C6: storing 9000 for port 1. -/
theorem qca8k_port_change_mtu_max_witness :
    (qca8k_port_change_mtu mtuDemo0 1 9000).1 1 = 9000 :=
  (qca8k_port_change_mtu_max mtuDemo0 1 9000 (by decide)).1

/-- Linux errno value EINVAL. -/
def EINVAL : Int := 22

/-- Modelled from the spec: MDIO master busy bit (missing header qca8k.h;
spec section 4.2 describes the busy bit of the MDIO master control
register, bit 31 on this chip family). -/
def QCA8K_MDIO_MASTER_BUSY : Nat := 2 ^ 31

/-- Modelled from the spec: MDIO master enable bit, bit 30 (missing
header qca8k.h; spec section 4.2). -/
def QCA8K_MDIO_MASTER_EN : Nat := 2 ^ 30

/-- Modelled from the spec: MDIO master read opcode bit, bit 27 (missing
header qca8k.h; spec section 4.2). -/
def QCA8K_MDIO_MASTER_READ : Nat := 2 ^ 27

/-- MDIO master write opcode: no bit set. -/
def QCA8K_MDIO_MASTER_WRITE : Nat := 0

/-- Low 16 data bits of the MDIO master control register. -/
def QCA8K_MDIO_MASTER_DATA_MASK : Nat := 0xffff

/-- Modelled from the spec: highest PHY register number plus one accepted
by the MDIO master (missing header qca8k.h; standard MDIO has 32
registers). -/
def QCA8K_MDIO_MASTER_MAX_REG : Int := 32

/-- A C int expression stored into a u32 register image: reduce modulo
2 to the 32. -/
def i32 (x : Int) : Nat := (x % (2 ^ 32 : Int)).toNat

/-- The control word built by qca8k_mdio_read and qca8k_mdio_write
(qca8k.c lines 304..307 and 341..343): busy, enable, opcode, PHY address
at bit 21, register number at bit 16, write data in the low bits. -/
def qca8k_mdio_master_word (isRead : Bool) (phy regnum : Int) (data : Nat) : Nat :=
  QCA8K_MDIO_MASTER_BUSY ||| QCA8K_MDIO_MASTER_EN |||
    (if isRead then QCA8K_MDIO_MASTER_READ else QCA8K_MDIO_MASTER_WRITE) |||
    i32 (phy * 2 ^ 21) ||| i32 (regnum * 2 ^ 16) ||| data

/-- Oracle for one MDIO master transaction: result of the page select,
result of the busy wait, and result plus value of the data read back. -/
structure MdioHw where
  page_ret : Int
  wait_ret : Int
  read_ret : Int
  read_val : Nat
deriving Repr, DecidableEq

/-- Embedding of qca8k_mdio_write (qca8k.c lines 294..329).  The second
component is the trace of 32 bit values written to the MDIO master
control register: a register number of 32 or more returns -EINVAL before
touching the bus; otherwise the command word is written (unless the page
select already failed) and the exit path always writes 0, clearing the
master enable bit, whatever the busy wait returned. -/
def qca8k_mdio_write (hw : MdioHw) (phy regnum : Int) (data : Nat) :
    Int × List Nat :=
  if QCA8K_MDIO_MASTER_MAX_REG ≤ regnum then (-EINVAL, [])
  else
    let val := qca8k_mdio_master_word false phy regnum data
    if hw.page_ret ≠ 0 then (hw.page_ret, [0])
    else (hw.wait_ret, [val, 0])

/-- Embedding of qca8k_mdio_read (qca8k.c lines 331..372).  Control flow
as in the source: early -EINVAL on a register number of 32 or more, then
page select, command write, busy wait, data read back; the exit path
always writes 0 to the control register, and the final adjustment applies
the data mask whenever the accumulated result is non-negative (the C
variable val still holds the command word on the failure paths). -/
def qca8k_mdio_read (hw : MdioHw) (phy regnum : Int) : Int × List Nat :=
  if QCA8K_MDIO_MASTER_MAX_REG ≤ regnum then (-EINVAL, [])
  else
    let val := qca8k_mdio_master_word true phy regnum 0
    if hw.page_ret ≠ 0 then
      (if hw.page_ret ≥ 0 then ((val &&& QCA8K_MDIO_MASTER_DATA_MASK : Nat) : Int)
       else hw.page_ret, [0])
    else if hw.wait_ret ≠ 0 then
      (if hw.wait_ret ≥ 0 then ((val &&& QCA8K_MDIO_MASTER_DATA_MASK : Nat) : Int)
       else hw.wait_ret, [val, 0])
    else
      (if hw.read_ret ≥ 0 then
        ((hw.read_val &&& QCA8K_MDIO_MASTER_DATA_MASK : Nat) : Int)
       else hw.read_ret, [val, 0])

/-- Counterexample to claim C7 as stated: an out of range register number
(32) makes both MDIO master operations return -EINVAL without writing
anything at all to the control register, so no path-independent clearing
write of 0 is issued on that path. -/
theorem qca8k_mdio_out_of_range_no_clear :
    (qca8k_mdio_write ⟨0, 0, 0, 0⟩ 1 32 5).2 = [] ∧
    (qca8k_mdio_read ⟨0, 0, 0, 0⟩ 1 32).2 = [] ∧
    (qca8k_mdio_write ⟨0, 0, 0, 0⟩ 1 32 5).1 = -EINVAL := by
  refine ⟨by decide, by decide, by decide⟩

/-- Claim C7 (amended): every MDIO master read and write whose register
number passes the bounds check (below 32) ends its control register write
trace with a write of 0, clearing the master enable bit, on every path:
after a successful transfer, after a busy wait timeout and after a failed
page select; the early -EINVAL rejection of a register number of 32 or
more performs no bus access at all (master enable was never set). -/
theorem qca8k_mdio_ops_clear_master (hw : MdioHw) (phy regnum : Int)
    (data : Nat) (hreg : regnum < QCA8K_MDIO_MASTER_MAX_REG) :
    ((qca8k_mdio_write hw phy regnum data).2 ≠ [] ∧
      ((qca8k_mdio_write hw phy regnum data).2).getLast? = some 0) ∧
    ((qca8k_mdio_read hw phy regnum).2 ≠ [] ∧
      ((qca8k_mdio_read hw phy regnum).2).getLast? = some 0) := by
  have hn : ¬ QCA8K_MDIO_MASTER_MAX_REG ≤ regnum := by omega
  constructor
  · unfold qca8k_mdio_write
    rw [if_neg hn]
    by_cases hp : hw.page_ret ≠ 0
    · rw [if_pos hp]
      exact ⟨by simp, rfl⟩
    · rw [if_neg hp]
      exact ⟨by simp, rfl⟩
  · unfold qca8k_mdio_read
    rw [if_neg hn]
    by_cases hp : hw.page_ret ≠ 0
    · rw [if_pos hp]
      exact ⟨by simp, rfl⟩
    · rw [if_neg hp]
      by_cases hww : hw.wait_ret ≠ 0
      · rw [if_pos hww]
        exact ⟨by simp, rfl⟩
      · rw [if_neg hww]
        exact ⟨by simp, rfl⟩

/-- Witness for claim C7 at register 5 with a clean oracle. -/
theorem qca8k_mdio_ops_clear_master_witness :
    ((qca8k_mdio_write ⟨0, 0, 0, 0⟩ 1 5 7).2).getLast? = some 0 :=
  ((qca8k_mdio_ops_clear_master ⟨0, 0, 0, 0⟩ 1 5 7 (by decide)).1).2

/-- Embedding of qca8k_split_addr (qca8k.c lines 30..41): decompose a
register address into the two low bus words and the 10 bit page. -/
def qca8k_split_addr (regaddr : Nat) : Nat × Nat × Nat :=
  let r1 := (regaddr >>> 1) &&& 0x1e
  let r2 := (regaddr >>> 6) &&& 0x7
  let page := (regaddr >>> 9) &&& 0x3ff
  (r1, r2, page)

/-- Initial value of the cached current page (qca8k.c line 28), chosen so
that the first access always issues a page select. -/
def qca8k_current_page_init : Nat := 0xffff

/-- Embedding of qca8k_set_page (qca8k.c lines 82..100): given the bus
write outcome, the cached page and the target page, return the result,
the new cached page and whether a page select write was issued.  A page
equal to the cache returns at once with no bus access; a failed select
write leaves the cache unchanged; a successful one updates it. -/
def qca8k_set_page (bus_write_ret : Int) (cur page : Nat) : Int × Nat × Bool :=
  if page = cur then (0, cur, false)
  else if bus_write_ret < 0 then (bus_write_ret, cur, true)
  else (0, page, true)

/-- Oracle for one paged transport access: outcome of the page select bus
write and of the 32 bit data read. -/
structure XportHw where
  page_write_ret : Int
  data_ret : Int
  data_val : Nat
deriving Repr, DecidableEq

/-- Embedding of qca8k_read (qca8k.c lines 102..122): split the address,
run the page select, and on success read the data words.  The result is
the return value, the new cached page, and the number of page select
writes issued (0 or 1). -/
def qca8k_read (hw : XportHw) (cur reg : Nat) : Int × Nat × Nat :=
  let page := (qca8k_split_addr reg).2.2
  let sp := qca8k_set_page hw.page_write_ret cur page
  if sp.1 < 0 then (sp.1, sp.2.1, if sp.2.2 then 1 else 0)
  else (hw.data_ret, sp.2.1, if sp.2.2 then 1 else 0)

/-- Embedding of qca8k_write (qca8k.c lines 124..144): like qca8k_read
but the data write has no return value, so the function returns the page
select outcome. -/
def qca8k_write (hw : XportHw) (cur reg : Nat) : Int × Nat × Nat :=
  let page := (qca8k_split_addr reg).2.2
  let sp := qca8k_set_page hw.page_write_ret cur page
  (sp.1, sp.2.1, if sp.2.2 then 1 else 0)

/-- A transport oracle on which every bus operation succeeds. -/
def xportHwOk : XportHw := ⟨0, 0, 0⟩

/-- Claim C8: a page select write is issued by a paged read or write
exactly when the page of the target address differs from the cached page;
a successful select updates the cache to the new page and a cache hit
leaves it unchanged; consequently reading 0x10 and then 0x14 (both page
0) from the fresh cache issues exactly one page select in total. -/
theorem qca8k_set_page_cached (hw : XportHw) (cur reg : Nat) :
    ((qca8k_read hw cur reg).2.2 = 1 ↔ (qca8k_split_addr reg).2.2 ≠ cur) ∧
    ((qca8k_write hw cur reg).2.2 = 1 ↔ (qca8k_split_addr reg).2.2 ≠ cur) ∧
    ((qca8k_split_addr reg).2.2 ≠ cur → 0 ≤ hw.page_write_ret →
      (qca8k_read hw cur reg).2.1 = (qca8k_split_addr reg).2.2 ∧
      (qca8k_write hw cur reg).2.1 = (qca8k_split_addr reg).2.2) ∧
    ((qca8k_split_addr reg).2.2 = cur →
      (qca8k_read hw cur reg).2.1 = cur ∧ (qca8k_read hw cur reg).2.2 = 0 ∧
      (qca8k_write hw cur reg).2.1 = cur ∧ (qca8k_write hw cur reg).2.2 = 0) ∧
    (qca8k_read xportHwOk qca8k_current_page_init 0x10).2.2 +
      (qca8k_read xportHwOk
        (qca8k_read xportHwOk qca8k_current_page_init 0x10).2.1 0x14).2.2 = 1 := by
  refine ⟨?_, ?_, ?_, ?_, by decide⟩
  · simp only [qca8k_read, qca8k_set_page]
    by_cases hpc : (qca8k_split_addr reg).2.2 = cur
    · simp [hpc]
    · by_cases hw0 : hw.page_write_ret < 0
      · simp [hpc, hw0]
      · simp [hpc, hw0]
  · simp only [qca8k_write, qca8k_set_page]
    by_cases hpc : (qca8k_split_addr reg).2.2 = cur
    · simp [hpc]
    · by_cases hw0 : hw.page_write_ret < 0
      · simp [hpc, hw0]
      · simp [hpc, hw0]
  · intro hpc hok
    have hw0 : ¬ hw.page_write_ret < 0 := by omega
    simp [qca8k_read, qca8k_write, qca8k_set_page, hpc, hw0]
  · intro hpc
    simp [qca8k_read, qca8k_write, qca8k_set_page, hpc]

/-- Witness for claim C8: a fresh cache and address 0x10 issue one page
select. -/
theorem qca8k_set_page_cached_witness :
    (qca8k_read xportHwOk qca8k_current_page_init 0x10).2.1 =
      (qca8k_split_addr 0x10).2.2 :=
  ((qca8k_set_page_cached xportHwOk qca8k_current_page_init 0x10).2.2.1
    (by decide) (by decide)).1

/-- Modelled from the spec: default port VLAN id substituted for vid 0
(missing header qca8k.h; spec section 3 invariant says VLAN id 0 is never
programmed into hardware, so the default port VLAN id is the nonzero
default VLAN 1). -/
def QCA8K_PORT_VID_DEF : Nat := 1

/-- The staging key written into the ATU data registers by
qca8k_fdb_write: MAC, VLAN id, port mask and aging. -/
def qca8k_fdb_stage (mac vid port_mask aging : Nat) : Nat × Nat × Nat × Nat :=
  (mac, vid, port_mask, aging)

/-- Embedding of qca8k_port_fdb_insert (qca8k-common.c lines 662..672):
substitute the default port VLAN id when vid is 0 and stage a static
entry. -/
def qca8k_port_fdb_insert (mac port_mask vid : Nat) : Nat × Nat × Nat × Nat :=
  qca8k_fdb_stage mac (if vid = 0 then QCA8K_PORT_VID_DEF else vid)
    port_mask QCA8K_ATU_STATUS_STATIC

/-- Embedding of qca8k_port_fdb_add (qca8k-common.c lines 674..682): the
port mask is the single bit of the port, the rest goes through
qca8k_port_fdb_insert. -/
def qca8k_port_fdb_add (port mac vid : Nat) : Nat × Nat × Nat × Nat :=
  qca8k_port_fdb_insert mac (1 <<< port) vid

/-- Embedding of qca8k_port_fdb_del (qca8k-common.c lines 684..695):
substitute the default port VLAN id when vid is 0 and stage the purge key
with aging 0. -/
def qca8k_port_fdb_del (port mac vid : Nat) : Nat × Nat × Nat × Nat :=
  qca8k_fdb_stage mac (if vid = 0 then QCA8K_PORT_VID_DEF else vid)
    (1 <<< port) 0

/-- Claim C9: port_fdb_add and port_fdb_del substitute the default port
VLAN id for vid 0, so an add and a later del with vid 0 address the same
table key, and no FDB entry is ever staged with VLAN id 0. -/
theorem qca8k_port_fdb_vid_default (port mac vid : Nat) :
    (qca8k_port_fdb_add port mac vid).2.1 =
      (qca8k_port_fdb_del port mac vid).2.1 ∧
    (vid = 0 → (qca8k_port_fdb_add port mac vid).2.1 = QCA8K_PORT_VID_DEF) ∧
    (vid = 0 → (qca8k_port_fdb_del port mac vid).2.1 = QCA8K_PORT_VID_DEF) ∧
    (qca8k_port_fdb_add port mac vid).2.1 ≠ 0 ∧
    (qca8k_port_fdb_del port mac vid).2.1 ≠ 0 := by
  unfold qca8k_port_fdb_add qca8k_port_fdb_del qca8k_port_fdb_insert
    qca8k_fdb_stage
  by_cases h : vid = 0
  · simp [h, QCA8K_PORT_VID_DEF]
  · simp [h]

/-- Witness for claim C9 at vid 0: the staged VLAN id is the default. -/
theorem qca8k_port_fdb_vid_default_witness :
    (qca8k_port_fdb_add 2 0xaabbccddeeff 0).2.1 = QCA8K_PORT_VID_DEF :=
  (qca8k_port_fdb_vid_default 2 0xaabbccddeeff 0).2.1 rfl

/-- Number of PHY addresses of an MDIO bus. -/
def PHY_MAX_ADDR : Int := 32

/-- Embedding of qca8k_port_to_phy (qca8k.c lines 257..270). -/
def qca8k_port_to_phy (port : Int) : Int := port - 1

/-- Embedding of qca8k_phy_read (qca8k.c lines 407..426): apply the
legacy port to PHY mapping when configured (C truncated remainder), run
the indirect MDIO master read and replace any negative result by 0xffff. -/
def qca8k_phy_read (legacy : Bool) (hw : MdioHw) (port regnum : Int) : Int :=
  let port2 := if legacy then (qca8k_port_to_phy port).tmod PHY_MAX_ADDR else port
  let ret := (qca8k_mdio_read hw port2 regnum).1
  if ret < 0 then 0xffff else ret

/-- A masked 16 bit value cast to Int stays within 0..0xffff. -/
lemma mask16_cast_bounds (x : Nat) :
    (0 : Int) ≤ ((x &&& QCA8K_MDIO_MASTER_DATA_MASK : Nat) : Int) ∧
    ((x &&& QCA8K_MDIO_MASTER_DATA_MASK : Nat) : Int) ≤ 0xffff := by
  constructor
  · exact Int.ofNat_nonneg _
  · have h := Nat.and_le_right (n := x) (m := QCA8K_MDIO_MASTER_DATA_MASK)
    have : (QCA8K_MDIO_MASTER_DATA_MASK : Nat) = 0xffff := rfl
    rw [this] at h
    exact_mod_cast h

/-- Every outcome of qca8k_mdio_read is a negative error or a value in
0..0xffff. -/
lemma qca8k_mdio_read_fst_cases (hw : MdioHw) (phy regnum : Int) :
    (qca8k_mdio_read hw phy regnum).1 < 0 ∨
    (0 ≤ (qca8k_mdio_read hw phy regnum).1 ∧
      (qca8k_mdio_read hw phy regnum).1 ≤ 0xffff) := by
  unfold qca8k_mdio_read
  by_cases h0 : QCA8K_MDIO_MASTER_MAX_REG ≤ regnum
  · rw [if_pos h0]
    left
    decide
  · rw [if_neg h0]
    by_cases h1 : hw.page_ret ≠ 0
    · rw [if_pos h1]
      by_cases h2 : hw.page_ret ≥ 0
      · rw [if_pos h2]
        exact Or.inr (mask16_cast_bounds _)
      · rw [if_neg h2]
        left
        omega
    · rw [if_neg h1]
      by_cases h2 : hw.wait_ret ≠ 0
      · rw [if_pos h2]
        by_cases h3 : hw.wait_ret ≥ 0
        · rw [if_pos h3]
          exact Or.inr (mask16_cast_bounds _)
        · rw [if_neg h3]
          left
          omega
      · rw [if_neg h2]
        by_cases h3 : hw.read_ret ≥ 0
        · rw [if_pos h3]
          exact Or.inr (mask16_cast_bounds _)
        · rw [if_neg h3]
          left
          omega

/-- Claim C10: the framework facing PHY read never returns a negative
error code: whatever the oracle does (out of range register, transport
failure, busy wait timeout), the result lies in 0..0xffff; a failing
indirect read yields 0xffff, so a failure is indistinguishable from a
register that actually holds 0xffff, as the two closing concrete runs
show. -/
theorem qca8k_phy_read_never_negative (legacy : Bool) (hw : MdioHw)
    (port regnum : Int) :
    0 ≤ qca8k_phy_read legacy hw port regnum ∧
    qca8k_phy_read legacy hw port regnum ≤ 0xffff ∧
    ((qca8k_mdio_read hw
        (if legacy then (qca8k_port_to_phy port).tmod PHY_MAX_ADDR else port)
        regnum).1 < 0 →
      qca8k_phy_read legacy hw port regnum = 0xffff) ∧
    qca8k_phy_read false ⟨0, -ETIMEDOUT, 0, 0⟩ 1 5 = 0xffff ∧
    qca8k_phy_read false ⟨0, 0, 0, 0xffff⟩ 1 5 = 0xffff := by
  refine ⟨?_, ?_, ?_, by decide, by decide⟩
  · simp only [qca8k_phy_read]
    rcases qca8k_mdio_read_fst_cases hw
      (if legacy then (qca8k_port_to_phy port).tmod PHY_MAX_ADDR else port)
      regnum with h | ⟨h1, h2⟩
    · rw [if_pos h]
      all_goals decide
    · rw [if_neg (by omega)]
      exact h1
  · simp only [qca8k_phy_read]
    rcases qca8k_mdio_read_fst_cases hw
      (if legacy then (qca8k_port_to_phy port).tmod PHY_MAX_ADDR else port)
      regnum with h | ⟨h1, h2⟩
    · rw [if_pos h]
      all_goals decide
    · rw [if_neg (by omega)]
      exact h2
  · intro h
    simp only [qca8k_phy_read]
    rw [if_pos h]

/-- Witness for claim C10: a timed out indirect read comes back as
0xffff. -/
theorem qca8k_phy_read_never_negative_witness :
    qca8k_phy_read false ⟨0, -ETIMEDOUT, 0, 0⟩ 1 5 = 0xffff :=
  (qca8k_phy_read_never_negative false ⟨0, -ETIMEDOUT, 0, 0⟩ 1 5).2.2.1
    (by decide)

end QCA8K
